import Mathlib

/-!
Verification development for the Daily Market Analysis system.

Shallow embedding of the core pipeline modules:
  scoring_system.py, data_fetcher.py, market_analysis.py.

Conventions of the embedding:
  - pandas floats are modelled by `ℚ`; a cell that may be NaN or whose
    column may be absent is modelled by `Option ℚ` (`none` = NaN/absent);
  - a pandas DataFrame is modelled by a structure of typed columns;
  - dates are modelled as day ordinals in `ℤ`;
  - Python exceptions that a function can raise are modelled by `Except`;
  - Python's stable `sorted` is modelled by `List.mergeSort` (both are
    stable sorts, so ties keep the input order in both).
-/

namespace DMA

/-- Python `round(x, 2)`: round to two decimal places. -/
def round2 (x : ℚ) : ℚ := ((round (x * 100) : ℤ) : ℚ) / 100

/-- `scoring_system.normalize_val`: clip `value` to `[min_val, max_val]` and
rescale linearly to `[0, 100]`; a NaN value (`none`) yields 50. -/
def normalize_val (value : Option ℚ) (min_val max_val : ℚ) : ℚ :=
  match value with
  | none => 50
  | some v => (max (min v max_val) min_val - min_val) / (max_val - min_val) * 100

/-- The window that `series.rolling(window=W)` hands to `apply` at position `i`:
the last `min W (i+1)` entries of `s.take (i+1)`. -/
def rollingWindow (s : List ℚ) (window i : ℕ) : List ℚ :=
  let upto := s.take (i + 1)
  upto.drop (upto.length - window)

/-- The lambda of `rolling_percentile_rank`: `(x < x.iloc[-1]).mean() * 100`.
The count of strictly smaller values is divided by the FULL window length,
the current (last) value included. -/
def windowRank (w : List ℚ) : ℚ :=
  ((w.countP (fun x => decide (x < w.getLastD 0))) : ℚ) / ((w.length) : ℚ) * 100

/-- `scoring_system.rolling_percentile_rank` (the identical copy lives in
`technical_indicators.py`): `series.rolling(window, min_periods=50).apply(...)`.
A position whose window holds fewer than 50 observations yields NaN (`none`). -/
def rolling_percentile_rank (s : List ℚ) (window : ℕ) : List (Option ℚ) :=
  (List.range s.length).map (fun i =>
    let w := rollingWindow s window i
    if w.length < 50 then none
    else some (if 0 < w.length then windowRank w else 50))

/-- The pattern `series.iloc[-1]` followed by `if pd.isna(rank): rank = 50.0`,
used by every scoring consumer of `rolling_percentile_rank`. -/
def lastRankOr50 (s : List ℚ) (window : ℕ) : ℚ :=
  match (rolling_percentile_rank s window).getLastD none with
  | none => 50
  | some r => r

/-- One row of an enriched series, restricted to the columns the scoring
engine reads.  `Option ℚ` fields are `none` when the column is absent or the
cell is NaN. -/
structure ScoreRow where
  date : ℤ
  close : ℚ
  sma20 : Option ℚ
  sma50 : Option ℚ
  sma125 : Option ℚ
  sma200 : Option ℚ
  adx : Option ℚ
  plusDI : Option ℚ
  minusDI : Option ℚ
  roc10 : Option ℚ
  roc20 : Option ℚ
  roc60 : Option ℚ
  rsi : Option ℚ
  prevWeekHigh : Option ℚ
  prevWeekLow : Option ℚ
  prevDayHigh : Option ℚ
  prevDayLow : Option ℚ
  pivotPoint : Option ℚ
  pivotAlt : Option ℚ
  hvol20 : Option ℚ
  hvol60 : Option ℚ
deriving DecidableEq

/-- A row with only `date` and `Close` set; every optional column is absent. -/
def bareRow (d : ℤ) (c : ℚ) : ScoreRow :=
  ⟨d, c, none, none, none, none, none, none, none, none, none, none, none,
   none, none, none, none, none, none, none, none⟩

/-- An enriched series as the scoring engine sees it: the rows plus the three
full columns that are fed to `rolling_percentile_rank` (`none` = column
absent). -/
structure ScoreDF where
  rows : List ScoreRow
  macdHist : Option (List ℚ)
  atrPct : Option (List ℚ)
  bbWidth : Option (List ℚ)
deriving DecidableEq

/-- SMA positioning block of `calculate_trend_score`: +25 points for every one
of SMA 20/50/125/200 whose value is present, non-NaN and below the close. -/
def sma_positioning (last : ScoreRow) : ℚ :=
  let one := fun (o : Option ℚ) =>
    match o with
    | some v => if last.close > v then (25 : ℚ) else 0
    | none => 0
  one last.sma20 + one last.sma50 + one last.sma125 + one last.sma200

/-- ADX direction block of `calculate_trend_score`: missing ADX defaults to 20,
missing ±DI to 50; ADX is clamped to `[0, 50]`; the direction multiplier is
`+1` when `+DI > -DI` and `-1` otherwise (in particular `-1` on a tie);
`50 + (adx_clamped - 25) * 2 * direction` is clamped to `[0, 100]`. -/
def adx_direction (last : ScoreRow) : ℚ :=
  let adx := last.adx.getD 20
  let plus_di := last.plusDI.getD 50
  let minus_di := last.minusDI.getD 50
  let adx_clamped := max 0 (min adx 50)
  let direction_mult : ℚ := if plus_di > minus_di then 1 else -1
  max 0 (min 100 (50 + (adx_clamped - 25) * 2 * direction_mult))

/-- ROC block of `calculate_trend_score`: ROC_20 (0 when missing) normalized
from `[-20, 20]` to `[0, 100]`. -/
def roc_trend_score (last : ScoreRow) : ℚ :=
  normalize_val (some (last.roc20.getD 0)) (-20) 20

/-- `last.get('pivot_point') or last.get('Pivot')`: Python `or` falls through
to the `Pivot` column when `pivot_point` is absent or its value is falsy
(0.0). -/
def pivotEff (last : ScoreRow) : Option ℚ :=
  match last.pivotPoint with
  | some v => if v = 0 then last.pivotAlt else some v
  | none => last.pivotAlt

/-- `close < level` for an optional level; an absent/NaN level never matches. -/
def ltOpt (c : ℚ) (o : Option ℚ) : Bool :=
  match o with
  | some v => decide (c < v)
  | none => false

/-- `close > level` for an optional level; an absent/NaN level never matches. -/
def gtOpt (c : ℚ) (o : Option ℚ) : Bool :=
  match o with
  | some v => decide (c > v)
  | none => false

/-- Pattern block of `calculate_trend_score`: hierarchical first-match against
the weekly/daily levels and the pivot, defaulting to the neutral 50. -/
def pattern_level_score (last : ScoreRow) : ℚ :=
  if ltOpt last.close last.prevWeekLow then 0
  else if ltOpt last.close last.prevDayLow then 25
  else if gtOpt last.close last.prevWeekHigh then 100
  else if gtOpt last.close last.prevDayHigh then 75
  else if gtOpt last.close (pivotEff last) then 60
  else 50

/-- `scoring_system.calculate_trend_score`. -/
def calculate_trend_score (df : ScoreDF) : ℚ :=
  match df.rows.getLast? with
  | none => 50
  | some last =>
    if df.rows.length < 5 then 50
    else
      max 0 (min 100
        (sma_positioning last * 0.30 + adx_direction last * 0.25 +
         roc_trend_score last * 0.25 + pattern_level_score last * 0.20))

/-- MACD-histogram block of `calculate_momentum_score`: percentile rank of the
histogram column over 252 days (50 when the column is absent or the last rank
is NaN), clamped to `[0, 100]`. -/
def macd_hist_score (df : ScoreDF) : ℚ :=
  match df.macdHist with
  | some col => max 0 (min 100 (lastRankOr50 col 252))
  | none => max 0 (min 100 (50 : ℚ))

/-- `scoring_system.calculate_momentum_score`. -/
def calculate_momentum_score (df : ScoreDF) : ℚ :=
  match df.rows.getLast? with
  | none => 50
  | some last =>
    if df.rows.length < 50 then 50
    else
      let rsi_score := max 0 (min 100 (last.rsi.getD 50))
      let macd_score := macd_hist_score df
      let roc_composite_val :=
        last.roc10.getD 0 * 0.5 + last.roc20.getD 0 * 0.3 + last.roc60.getD 0 * 0.2
      let roc_comp_score := normalize_val (some roc_composite_val) (-20) 20
      max 0 (min 100 (rsi_score * 0.35 + macd_score * 0.35 + roc_comp_score * 0.30))

/-- Percentile rank of a whole optional column (50 when the column is absent
or the last rank is NaN). -/
def colRankOr50 (col : Option (List ℚ)) : ℚ :=
  match col with
  | some c => lastRankOr50 c 252
  | none => 50

/-- `scoring_system.calculate_volatility_score`.  The score is DIRECT:
high = high volatility; no inversion happens here. -/
def calculate_volatility_score (df : ScoreDF) : ℚ :=
  match df.rows.getLast? with
  | none => 50
  | some last =>
    if df.rows.length < 50 then 50
    else
      let atr_rank := colRankOr50 df.atrPct
      let bb_rank := colRankOr50 df.bbWidth
      let hvol_20 := last.hvol20.getD 20
      let hvol_60_raw := last.hvol60.getD 20
      let hvol_60 := if hvol_60_raw = 0 then 20 else hvol_60_raw
      let hv_ratio := if hvol_60 ≠ 0 then hvol_20 / hvol_60 else 1
      let hv_score := normalize_val (some hv_ratio) 0.5 1.5
      max 0 (min 100 (atr_rank * 0.40 + bb_rank * 0.35 + hv_score * 0.25))

/-- `(Date, Close)` pairs of a series, the input of the relative-strength
merge. -/
def closes (df : ScoreDF) : List (ℤ × ℚ) :=
  df.rows.map (fun r => (r.date, r.close))

/-- `pd.merge(df_close, bench_close, on='Date', how='inner')` for series with
unique dates: keep each left row whose date also occurs on the right, pairing
the two closes. -/
def mergeOnDate (a b : List (ℤ × ℚ)) : List (ℚ × ℚ) :=
  a.filterMap (fun p => (b.find? (fun q => q.1 == p.1)).map (fun q => (p.2, q.2)))

/-- `rs_ratio.pct_change(periods=n).iloc[-1]`: `none` (NaN) when the series
has at most `n` entries, else `s[last] / s[last - n] - 1`. -/
def pct_change_last (s : List ℚ) (n : ℕ) : Option ℚ :=
  if n < s.length then some (s.getLastD 0 / s.getD (s.length - 1 - n) 0 - 1)
  else none

/-- `scoring_system.calculate_relative_strength_score`.  The `UNIVERSE`
mapping (ticker → benchmark ticker) comes from the configuration module and is
passed as a parameter. -/
def calculate_relative_strength_score (univ : List (String × String))
    (df : ScoreDF) (benchmark_df : Option ScoreDF) (ticker : String) : ℚ :=
  if df.rows.isEmpty then 50
  else
    let benchmark_ticker :=
      ((univ.find? (fun p => p.1 == ticker)).map Prod.snd).getD "SPY"
    if benchmark_ticker == "Self" || benchmark_ticker == ticker ||
        benchmark_ticker == "N/A" then 50
    else
      match benchmark_df with
      | none => 50
      | some bdf =>
        if bdf.rows.isEmpty then 50
        else
          let merged := mergeOnDate (closes df) (closes bdf)
          if merged.length < 50 then 50
          else
            let rs_ratio := merged.map (fun p => p.1 / p.2)
            let rs_rank := lastRankOr50 rs_ratio 252
            let rs_momentum := (pct_change_last rs_ratio 10).getD 0
            let momentum_adjustment := rs_momentum * 100 * 0.5
            max 0 (min 100 (rs_rank + momentum_adjustment))

/-- The `WEIGHTS` record consumed by `calculate_composite_score`. -/
structure Weights where
  trend : ℚ
  momentum : ℚ
  volatility : ℚ
  rel_strength : ℚ
deriving DecidableEq

/-- Modelled from the spec: the default `CONFIG['WEIGHTS']` live in
`config.py`, which is not part of the sources; spec section 6.2 pins the
defaults TREND 0.30, MOMENTUM 0.30, VOLATILITY 0.15, REL_STRENGTH 0.25. -/
def defaultWeights : Weights := ⟨0.30, 0.30, 0.15, 0.25⟩

/-- `scoring_system.calculate_composite_score`: the volatility sub-score is
inverted (`100 - volatility`) here and only here; the weighted sum is clamped
to `[0, 100]` and rounded to two decimals. -/
def calculate_composite_score (trend_score momentum_score volatility_score
    relative_strength_score : ℚ) (weights : Weights) : ℚ :=
  let volatility_inverted := 100 - volatility_score
  let composite :=
    trend_score * weights.trend + momentum_score * weights.momentum +
    volatility_inverted * weights.volatility +
    relative_strength_score * weights.rel_strength
  round2 (max 0 (min 100 composite))

/-- The score set returned per instrument. -/
structure Scores where
  composite : ℚ
  trend : ℚ
  momentum : ℚ
  volatility : ℚ
  relative_strength : ℚ
deriving DecidableEq

/-- `scoring_system.score_instrument`: the four sub-scores, composited with
the default weights; every stored sub-score, volatility included, is the
DIRECT (non-inverted) value rounded to two decimals. -/
def score_instrument (univ : List (String × String)) (df : ScoreDF)
    (ticker : String) (benchmark_data : List (String × ScoreDF)) : Scores :=
  let benchmark_ticker :=
    ((univ.find? (fun p => p.1 == ticker)).map Prod.snd).getD "SPY"
  let benchmark_df :=
    (benchmark_data.find? (fun p => p.1 == benchmark_ticker)).map Prod.snd
  let trend_score := calculate_trend_score df
  let momentum_score := calculate_momentum_score df
  let volatility_score := calculate_volatility_score df
  let relative_strength_score :=
    calculate_relative_strength_score univ df benchmark_df ticker
  { composite := calculate_composite_score trend_score momentum_score
      volatility_score relative_strength_score defaultWeights,
    trend := round2 trend_score,
    momentum := round2 momentum_score,
    volatility := round2 volatility_score,
    relative_strength := round2 relative_strength_score }

/-- The fallback score set written by `score_universe` when scoring a ticker
raises. -/
def fallbackScores : Scores := ⟨50, 50, 50, 50, 50⟩

/-- `scoring_system.score_universe`: one entry per input ticker, in input
order; a scorer exception is caught per ticker and replaced by the fallback.
The per-ticker scoring call (which may raise) is passed as `scorer`; the
system instantiates it with `score_instrument`. -/
def score_universe (scorer : String → ScoreDF → Except String Scores)
    (data_dict : List (String × ScoreDF)) : List (String × Scores) :=
  data_dict.map (fun p =>
    match scorer p.1 p.2 with
    | Except.ok s => (p.1, s)
    | Except.error _ => (p.1, fallbackScores))

/-- Python `sorted(items, key, reverse=True)`: a stable descending sort. -/
def sortDescBy (key : String × Scores → ℚ) (l : List (String × Scores)) :
    List (String × Scores) :=
  l.mergeSort (fun a b => decide (key b ≤ key a))

/-- Python `sorted(items, key)`: a stable ascending sort. -/
def sortAscBy (key : String × Scores → ℚ) (l : List (String × Scores)) :
    List (String × Scores) :=
  l.mergeSort (fun a b => decide (key a ≤ key b))

/-- The five ranking lists of `generate_rankings`. -/
structure Rankings where
  by_composite_score : List (String × Scores)
  by_trend : List (String × Scores)
  by_momentum : List (String × Scores)
  by_volatility : List (String × Scores)
  by_relative_strength : List (String × Scores)

/-- `scoring_system.generate_rankings`: descending by composite, trend,
momentum and relative strength; ascending by volatility (low volatility
first). -/
def generate_rankings (scores_dict : List (String × Scores)) : Rankings :=
  let items := scores_dict
  { by_composite_score := sortDescBy (fun x => x.2.composite) items,
    by_trend := sortDescBy (fun x => x.2.trend) items,
    by_momentum := sortDescBy (fun x => x.2.momentum) items,
    by_volatility := sortAscBy (fun x => x.2.volatility) items,
    by_relative_strength := sortDescBy (fun x => x.2.relative_strength) items }

/-- A raw bar as returned by the fetch layer before cleaning; price cells may
be NaN (`none`). -/
structure RawRow where
  date : ℤ
  openP : Option ℚ
  high : Option ℚ
  low : Option ℚ
  close : Option ℚ
  adjClose : Option ℚ
  volume : Option ℚ
deriving DecidableEq

/-- A raw series; `hasAdjClose` records whether the `Adj Close` column is
present (the per-column `> 0` filter of `clean_dataframe` only runs on columns
that exist). -/
structure RawDF where
  rows : List RawRow
  hasAdjClose : Bool
deriving DecidableEq

/-- The pandas comparison `cell > 0` of `clean_dataframe`: a NaN cell
compares false. -/
def posCell (o : Option ℚ) : Bool :=
  match o with
  | some v => decide (0 < v)
  | none => false

/-- One `df = df[df[col] > 0]` step of `clean_dataframe`: keep the rows whose
cell in the given column is present and positive. -/
def keepPositive (get : RawRow → Option ℚ) (rows : List RawRow) : List RawRow :=
  rows.filter (fun r => posCell (get r))

/-- `data_fetcher.clean_dataframe`: drop rows with NaN O/H/L/C, keep only
positive prices in every present price column, sort ascending by date, and
coerce the volume (NaN becomes 0).  NOTE: no bar is ever dropped because of
its DATE — the function has no notion of the current session. -/
def clean_dataframe (df : RawDF) : RawDF :=
  let r1 := df.rows.filter (fun r =>
    r.openP.isSome && r.high.isSome && r.low.isSome && r.close.isSome)
  let r2 := keepPositive (fun r => r.openP) r1
  let r3 := keepPositive (fun r => r.high) r2
  let r4 := keepPositive (fun r => r.low) r3
  let r5 := keepPositive (fun r => r.close) r4
  let r6 := if df.hasAdjClose then keepPositive (fun r => r.adjClose) r5 else r5
  let r7 := r6.mergeSort (fun a b => decide (a.date ≤ b.date))
  let r8 := r7.map (fun r => { r with volume := some (r.volume.getD 0) })
  { rows := r8, hasAdjClose := df.hasAdjClose }

/-- `data_fetcher.get_date_range_for_analysis` with dates as day ordinals:
the end date is YESTERDAY (`now - 1`) and the start date is the end date
minus `DATA_LOOKBACK_DAYS` (a configuration value, passed as a parameter).
This is the only session-boundary mechanism in the data layer. -/
def get_date_range_for_analysis (now lookback_days : ℤ) : ℤ × ℤ :=
  let end_date := now - 1
  (end_date - lookback_days, end_date)

/-- One provider-A (EODHD) JSON bar: `date, open, high, low, close,
adjusted_close, volume`; `adjusted_close` is `none` when the provider omitted
the field. -/
structure EODBar where
  date : ℤ
  openP : ℚ
  high : ℚ
  low : ℚ
  close : ℚ
  adjusted_close : Option ℚ
  volume : ℚ
deriving DecidableEq

/-- `EODHDClient.get_eod_data`, the DataFrame-shaping part (lines 230-270):
rename the columns, default `Adj Close` to `Close` when absent, sort
ascending by date and reject the result when it has fewer than
`MIN_REQUIRED_ROWS` rows.  O/H/L/C pass through UNCHANGED; no adjustment
factor is applied anywhere. -/
def get_eod_data (bars : List EODBar) (min_required_rows : ℕ) :
    Option (List EODBar) :=
  if bars.isEmpty then none
  else
    let df := bars.map (fun b =>
      { b with adjusted_close := some (b.adjusted_close.getD b.close) })
    let sorted := df.mergeSort (fun a b => decide (a.date ≤ b.date))
    if sorted.length < min_required_rows then none else some sorted

/-- The claim's back-adjustment of one provider-A bar: `factor =
adjusted_close / close` (1 when `close = 0`); O/H/L are multiplied by the
factor and close is replaced by adjusted_close.  Written from the spec's
words, for comparison with `get_eod_data` (which does nothing of the kind). -/
def spec_back_adjust (b : EODBar) : EODBar :=
  let adj := b.adjusted_close.getD b.close
  let factor := if b.close = 0 then 1 else adj / b.close
  { b with openP := b.openP * factor, high := b.high * factor,
           low := b.low * factor, close := adj,
           adjusted_close := some adj }

/-- The market-regime snapshot record of `detect_market_regime`. -/
structure Regime where
  vix_level : Option ℚ
  vix_regime : String
  spy_trend : String
  spy_above_sma200 : Option Bool
  market_condition : String
  risk_appetite : String
deriving DecidableEq

/-- Modelled from the spec: `CONFIG['VIX_LOW']` lives in `config.py`, which is
not part of the sources; spec section 6.2 gives 15. -/
def VIX_LOW : ℚ := 15

/-- Modelled from the spec: `CONFIG['VIX_MEDIUM']` lives in `config.py`, which
is not part of the sources; spec section 6.2 gives 25. -/
def VIX_MEDIUM : ℚ := 25

/-- `market_analysis.detect_market_regime`.  The record starts from the
defaults (`unknown` regimes, `neutral` risk appetite); the VIX block and the
SPY block each run only when their series has data; the combined
market-condition cascade ALWAYS runs and falls through to `"neutral"` when no
arm matches (in particular when the VIX or SPY inputs are unknown).  The
logging line that raises on a missing VIX executes after every field has been
assigned, so the returned record is unaffected. -/
def detect_market_regime (vix_df spy_df : ScoreDF) : Regime :=
  let base : Regime := ⟨none, "unknown", "unknown", none, "unknown", "neutral"⟩
  let r1 :=
    match vix_df.rows.getLast? with
    | none => base
    | some lastv =>
      if lastv.close < VIX_LOW then
        { base with vix_level := some lastv.close, vix_regime := "low",
                    risk_appetite := "risk-on" }
      else if lastv.close < VIX_MEDIUM then
        { base with vix_level := some lastv.close, vix_regime := "medium",
                    risk_appetite := "neutral" }
      else
        { base with vix_level := some lastv.close, vix_regime := "high",
                    risk_appetite := "risk-off" }
  let r2 :=
    match spy_df.rows.getLast? with
    | none => r1
    | some lasts =>
      match lasts.sma200 with
      | none => r1
      | some sma =>
        if lasts.close > sma then
          { r1 with spy_above_sma200 := some true, spy_trend := "uptrend" }
        else
          { r1 with spy_above_sma200 := some false, spy_trend := "downtrend" }
  let mc :=
    if r2.vix_regime == "low" && r2.spy_trend == "uptrend" then "bullish"
    else if r2.vix_regime == "high" && r2.spy_trend == "downtrend" then "bearish"
    else if r2.vix_regime == "high" && r2.spy_trend == "uptrend" then
      "volatile_bullish"
    else if r2.vix_regime == "low" && r2.spy_trend == "downtrend" then
      "quiet_bearish"
    else "neutral"
  { r2 with market_condition := mc }

/-- `processed_data.get(ticker, pd.DataFrame())` in `run_full_analysis`. -/
def lookupDf (processed : List (String × ScoreDF)) (t : String) : ScoreDF :=
  ((processed.find? (fun p => p.1 == t)).map Prod.snd).getD ⟨[], none, none, none⟩

/-- Step 5 of `run_full_analysis`: regime detection on the two reference
symbols, each replaced by an empty DataFrame when it produced no series. -/
def run_regime (processed : List (String × ScoreDF)) : Regime :=
  detect_market_regime (lookupDf processed "^VIX") (lookupDf processed "SPY")

/-- Step 7 of `run_full_analysis` combined with the `df.empty` guard of
`consolidate_instrument_data`: an instrument record is emitted exactly for
the tickers whose processed series is nonempty (regardless of the regime). -/
def consolidated_tickers (processed : List (String × ScoreDF)) : List String :=
  (processed.filter (fun p => !p.2.rows.isEmpty)).map Prod.fst

/-- One row of an enriched series as the signal generator reads it; O/H/L/C
are required columns, the rest are optional (`none` = column absent or cell
NaN). -/
structure SignalRow where
  openP : ℚ
  high : ℚ
  low : ℚ
  close : ℚ
  rsi : Option ℚ
  bbUpper : Option ℚ
  bbLower : Option ℚ
  volumeRatio : Option ℚ
  macd : Option ℚ
  macdSignal : Option ℚ
  sma50 : Option ℚ
  sma200 : Option ℚ
  adx : Option ℚ
deriving DecidableEq

/-- The signal taxonomy that `generate_signals` can actually emit; the
payload of a constructor is the number interpolated into the signal string. -/
inductive Signal where
  | breakingAboveWeeklyHigh
  | breakingBelowWeeklyLow
  | rsiExtremelyOverbought (v : ℚ)
  | rsiOverbought (v : ℚ)
  | rsiExtremelyOversold (v : ℚ)
  | rsiOversold (v : ℚ)
  | bbUpperBreakout
  | bbLowerBreakout
  | volumeSurge (v : ℚ)
  | gapUp (v : ℚ)
  | gapDown (v : ℚ)
  | macdBullishCrossover
  | macdBearishCrossover
  | goldenCross
  | deathCross
  | strongTrend (v : ℚ)
deriving DecidableEq

/-- The signal thresholds read from `CONFIG` (held in `config.py`, outside
the sources); `generate_signals` takes them as a parameter. -/
structure SignalConfig where
  rsi_extreme_ob : ℚ
  rsi_extreme_os : ℚ
  rsi_overbought : ℚ
  rsi_oversold : ℚ
  bb_breakout : ℚ
  volume_surge : ℚ
  gap_threshold : ℚ
  adx_strong_trend : ℚ
deriving DecidableEq

/-- `df['High'].iloc[-6:-1]`: the rows from index `max(0, n-6)` to `n-2`,
i.e. the last five rows before the current one (fewer when the series is
short). -/
def weekWindow (df : List SignalRow) : List SignalRow :=
  let t := df.dropLast
  t.drop (t.length - 5)

/-- The previous-week high used by `generate_signals`:
`df['High'].iloc[-6:-1].max()`. -/
def weekHigh (df : List SignalRow) : ℚ :=
  ((weekWindow df).map (fun r => r.high)).max?.getD 0

/-- The previous-week low used by `generate_signals`:
`df['Low'].iloc[-6:-1].min()`. -/
def weekLow (df : List SignalRow) : ℚ :=
  ((weekWindow df).map (fun r => r.low)).min?.getD 0

/-- Section 1 of `generate_signals` (price levels): ONLY the two weekly
levels are checked, and only for a close beyond them; no previous-day levels
and no "Testing" variants exist in the code. -/
def priceSignals (df : List SignalRow) (last : SignalRow) : List Signal :=
  if 5 ≤ df.length then
    (if last.close > weekHigh df then [Signal.breakingAboveWeeklyHigh] else []) ++
    (if last.close < weekLow df then [Signal.breakingBelowWeeklyLow] else [])
  else []

/-- Section 2 of `generate_signals`: RSI thresholds, first match wins. -/
def rsiSignals (cfg : SignalConfig) (last : SignalRow) : List Signal :=
  match last.rsi with
  | none => []
  | some r =>
    if r ≥ cfg.rsi_extreme_ob then [Signal.rsiExtremelyOverbought r]
    else if r ≥ cfg.rsi_overbought then [Signal.rsiOverbought r]
    else if r ≤ cfg.rsi_extreme_os then [Signal.rsiExtremelyOversold r]
    else if r ≤ cfg.rsi_oversold then [Signal.rsiOversold r]
    else []

/-- Section 3 of `generate_signals`: Bollinger breakouts.  A zero band value
makes the Python distance computation raise `ZeroDivisionError`, which the
surrounding `except` turns into an early return (`Except.error`). -/
def bbSignals (cfg : SignalConfig) (last : SignalRow) :
    Except Unit (List Signal) :=
  match last.bbUpper, last.bbLower with
  | some u, some l =>
    if last.close > u then
      if u = 0 then Except.error ()
      else if (last.close - u) / u * 100 > cfg.bb_breakout then
        Except.ok [Signal.bbUpperBreakout]
      else Except.ok []
    else if last.close < l then
      if l = 0 then Except.error ()
      else if (l - last.close) / l * 100 > cfg.bb_breakout then
        Except.ok [Signal.bbLowerBreakout]
      else Except.ok []
    else Except.ok []
  | _, _ => Except.ok []

/-- Section 4 of `generate_signals`: volume surge. -/
def volumeSignals (cfg : SignalConfig) (last : SignalRow) : List Signal :=
  match last.volumeRatio with
  | none => []
  | some vr =>
    if vr > cfg.volume_surge then [Signal.volumeSurge vr] else []

/-- Section 5 of `generate_signals`: opening gap versus the previous close;
a zero previous close raises in Python (early return). -/
def gapSignals (cfg : SignalConfig) (last prev : SignalRow) :
    Except Unit (List Signal) :=
  if prev.close = 0 then Except.error ()
  else
    let gap := (last.openP - prev.close) / prev.close * 100
    if |gap| > cfg.gap_threshold * 100 then
      if gap > 0 then Except.ok [Signal.gapUp gap]
      else Except.ok [Signal.gapDown gap]
    else Except.ok []

/-- Section 6 of `generate_signals`: MACD line/signal crossover. -/
def macdSignals (last prev : SignalRow) : List Signal :=
  match last.macd, last.macdSignal, prev.macd, prev.macdSignal with
  | some lm, some ls, some pm, some ps =>
    if pm < ps ∧ lm > ls then [Signal.macdBullishCrossover]
    else if pm > ps ∧ lm < ls then [Signal.macdBearishCrossover]
    else []
  | _, _, _, _ => []

/-- Section 7 of `generate_signals`: golden/death cross of SMA 50 and 200. -/
def smaCrossSignals (last prev : SignalRow) : List Signal :=
  match last.sma50, last.sma200, prev.sma50, prev.sma200 with
  | some l50, some l200, some p50, some p200 =>
    if p50 < p200 ∧ l50 > l200 then [Signal.goldenCross]
    else if p50 > p200 ∧ l50 < l200 then [Signal.deathCross]
    else []
  | _, _, _, _ => []

/-- Section 8 of `generate_signals`: strong trend by ADX. -/
def adxSignals (cfg : SignalConfig) (last : SignalRow) : List Signal :=
  match last.adx with
  | none => []
  | some a => if a > cfg.adx_strong_trend then [Signal.strongTrend a] else []

/-- `market_analysis.generate_signals`: empty for fewer than five rows, else
the eight sections in order; an exception inside a section returns the
signals accumulated so far. -/
def generate_signals (cfg : SignalConfig) (df : List SignalRow) : List Signal :=
  if df.length < 5 then []
  else
    match df.getLast?, df.dropLast.getLast? with
    | some last, some prev =>
      let s12 := priceSignals df last ++ rsiSignals cfg last
      match bbSignals cfg last with
      | Except.error _ => s12
      | Except.ok s3 =>
        let s14 := s12 ++ s3 ++ volumeSignals cfg last
        match gapSignals cfg last prev with
        | Except.error _ => s14
        | Except.ok s5 =>
          s14 ++ s5 ++ macdSignals last prev ++ smaCrossSignals last prev ++
            adxSignals cfg last
    | _, _ => []

/-- The claim's rolling percentile rank, written from the spec's words: the
fraction of the PRECEDING window values (the current value excluded, also
from the denominator) strictly below the current value. -/
def spec_rolling_percentile_rank (s : List ℚ) (window : ℕ) : List (Option ℚ) :=
  (List.range s.length).map (fun i =>
    let w := rollingWindow s window i
    if w.length < 50 then none
    else
      let preceding := w.dropLast
      some (((preceding.countP (fun x => decide (x < w.getLastD 0))) : ℚ) /
        ((preceding.length) : ℚ) * 100))

/-- The mathematical sign function used by the claim's ADX-direction
formula (`sign 0 = 0`). -/
def qsign (x : ℚ) : ℚ := if x > 0 then 1 else if x < 0 then -1 else 0

/-- The claim's ADX-direction component, written from the spec's words:
`50 + (min(ADX,50) - 25) * 2 * sign(+DI - -DI)`, clamped to `[0, 100]`. -/
def spec_adx_direction (adx pdi mdi : ℚ) : ℚ :=
  max 0 (min 100 (50 + (min adx 50 - 25) * 2 * qsign (pdi - mdi)))

/-- The condition under which `clean_dataframe` retains a row: every one of
open/high/low/close is present and positive, and Adj Close too when that
column exists.  The row's DATE plays no part. -/
def priceOk (r : RawRow) (hasAdj : Bool) : Bool :=
  posCell r.openP && posCell r.high && posCell r.low && posCell r.close &&
  (!hasAdj || posCell r.adjClose)

/-! ### Fixtures used by witnesses and counterexamples -/

/-- An empty enriched series. -/
def emptyDF : ScoreDF := ⟨[], none, none, none⟩

/-- A positively-priced raw bar dated "today" (day ordinal 5). -/
def todayRawRow : RawRow := ⟨5, some 10, some 12, some 9, some 11, some 11, some 0⟩

/-- A provider-A bar whose close (100) differs from its adjusted close (50). -/
def unadjBar : EODBar := ⟨0, 10, 12, 9, 100, some 50, 0⟩

/-- An enriched one-row series for a non-reference symbol. -/
def qqqDF : ScoreDF := ⟨[bareRow 0 380], none, none, none⟩

/-- A signal row with only the required O/H/L/C columns. -/
def sigRowOHLC (o h l c : ℚ) : SignalRow :=
  ⟨o, h, l, c, none, none, none, none, none, none, none, none, none⟩

/-- A five-row series whose last close (15) crosses up through the previous
day's high (10) while staying below the weekly high (20); the previous close
was 8 and there is no opening gap. -/
def sigDF : List SignalRow :=
  [sigRowOHLC 8 20 5 8, sigRowOHLC 8 20 5 8, sigRowOHLC 8 20 5 8,
   sigRowOHLC 8 10 5 8, sigRowOHLC 8 15 8 15]

/-- Modelled from the spec: the signal thresholds of `CONFIG` (`config.py` is
not part of the sources); spec sections 4.6 and 6.2 give RSI extremes 80/20,
RSI overbought/oversold 70/30, volume surge 2.0, gap threshold 0.02 and
ADX strong trend 25; no default is given for `BB_BREAKOUT`, taken as 0. -/
def cfg0 : SignalConfig := ⟨80, 20, 70, 30, 0, 2, 1 / 50, 25⟩

/-- Fifty strictly increasing values 0, 1, …, 49. -/
def ascSeries : List ℚ := (List.range 50).map (fun n => (n : ℚ))

/-! ### Helper lemmas -/

theorem clamp_nonneg (x : ℚ) : 0 ≤ max 0 (min 100 x) := le_max_left 0 _

theorem clamp_le (x : ℚ) : max 0 (min 100 x) ≤ 100 :=
  max_le (by norm_num) (min_le_left 100 x)

theorem round_mono_q {x y : ℚ} (h : x ≤ y) : round x ≤ round y := by
  rw [round_eq, round_eq]
  exact Int.floor_le_floor (by linarith)

theorem round2_nonneg {x : ℚ} (h : 0 ≤ x) : 0 ≤ round2 x := by
  unfold round2
  apply div_nonneg _ (by norm_num)
  have h1 : round (0 : ℚ) ≤ round (x * 100) := round_mono_q (by nlinarith)
  rw [round_zero] at h1
  exact_mod_cast h1

theorem round2_le_100 {x : ℚ} (h : x ≤ 100) : round2 x ≤ 100 := by
  unfold round2
  rw [div_le_iff₀ (by norm_num : (0 : ℚ) < 100)]
  have h1 : round (x * 100) ≤ round ((10000 : ℤ) : ℚ) :=
    round_mono_q (by push_cast; nlinarith)
  rw [round_intCast] at h1
  have h2 : ((round (x * 100) : ℤ) : ℚ) ≤ ((10000 : ℤ) : ℚ) := by exact_mod_cast h1
  calc ((round (x * 100) : ℤ) : ℚ) ≤ ((10000 : ℤ) : ℚ) := h2
    _ = 100 * 100 := by norm_num

theorem calculate_trend_score_bounds (df : ScoreDF) :
    0 ≤ calculate_trend_score df ∧ calculate_trend_score df ≤ 100 := by
  unfold calculate_trend_score
  cases df.rows.getLast? with
  | none => norm_num
  | some last =>
    by_cases h : df.rows.length < 5
    · simp only [h, if_true]
      norm_num
    · simp only [h, if_false]
      exact ⟨clamp_nonneg _, clamp_le _⟩

theorem calculate_momentum_score_bounds (df : ScoreDF) :
    0 ≤ calculate_momentum_score df ∧ calculate_momentum_score df ≤ 100 := by
  unfold calculate_momentum_score
  cases df.rows.getLast? with
  | none => norm_num
  | some last =>
    by_cases h : df.rows.length < 50
    · simp only [h, if_true]
      norm_num
    · simp only [h, if_false]
      exact ⟨clamp_nonneg _, clamp_le _⟩

theorem calculate_volatility_score_bounds (df : ScoreDF) :
    0 ≤ calculate_volatility_score df ∧ calculate_volatility_score df ≤ 100 := by
  unfold calculate_volatility_score
  cases df.rows.getLast? with
  | none => norm_num
  | some last =>
    by_cases h : df.rows.length < 50
    · simp only [h, if_true]
      norm_num
    · simp only [h, if_false]
      exact ⟨clamp_nonneg _, clamp_le _⟩

theorem calculate_relative_strength_score_bounds (univ : List (String × String))
    (df : ScoreDF) (bdf : Option ScoreDF) (ticker : String) :
    0 ≤ calculate_relative_strength_score univ df bdf ticker ∧
      calculate_relative_strength_score univ df bdf ticker ≤ 100 := by
  unfold calculate_relative_strength_score
  split
  · norm_num
  · dsimp only
    split
    · norm_num
    · split
      · norm_num
      · split
        · norm_num
        · split
          · norm_num
          · exact ⟨clamp_nonneg _, clamp_le _⟩

theorem composite_bounds (t m v rs : ℚ) (w : Weights) :
    0 ≤ calculate_composite_score t m v rs w ∧
      calculate_composite_score t m v rs w ≤ 100 :=
  ⟨round2_nonneg (clamp_nonneg _), round2_le_100 (clamp_le _)⟩

theorem round2_bounds_of_bounds {x : ℚ} (h0 : 0 ≤ x) (h1 : x ≤ 100) :
    0 ≤ round2 x ∧ round2 x ≤ 100 :=
  ⟨round2_nonneg h0, round2_le_100 h1⟩

/-! ### Claim theorems -/

/-- C1: for all sub-scores `t, m, v, rs`, the composite with the default
weights equals `0.30·t + 0.30·m + 0.15·(100 − v) + 0.25·rs` clamped to
`[0,100]` and rounded to 2 decimals; and the volatility sub-score stored by
`score_instrument` is the direct (non-inverted) volatility value, so the
inversion happens only inside `calculate_composite_score`. -/
theorem C1_composite_formula_and_single_inversion (t m v rs : ℚ)
    (univ : List (String × String)) (df : ScoreDF) (ticker : String)
    (bdata : List (String × ScoreDF)) :
    calculate_composite_score t m v rs defaultWeights =
      round2 (max 0 (min 100
        (0.30 * t + 0.30 * m + 0.15 * (100 - v) + 0.25 * rs))) ∧
    (score_instrument univ df ticker bdata).volatility =
      round2 (calculate_volatility_score df) := by
  refine ⟨?_, rfl⟩
  have h : t * (0.30 : ℚ) + m * (0.30 : ℚ) + (100 - v) * (0.15 : ℚ) +
      rs * (0.25 : ℚ) =
      0.30 * t + 0.30 * m + 0.15 * (100 - v) + 0.25 * rs := by ring
  show round2 (max 0 (min 100 (t * (0.30 : ℚ) + m * (0.30 : ℚ) +
    (100 - v) * (0.15 : ℚ) + rs * (0.25 : ℚ)))) = _
  rw [h]

/-- C5: every sub-score produced by the scoring engine lies in `[0,100]`, and
so does the composite stored by `score_instrument`. -/
theorem C5_scores_in_range (univ : List (String × String)) (df : ScoreDF)
    (bdf : Option ScoreDF) (ticker : String)
    (bdata : List (String × ScoreDF)) :
    (0 ≤ calculate_trend_score df ∧ calculate_trend_score df ≤ 100) ∧
    (0 ≤ calculate_momentum_score df ∧ calculate_momentum_score df ≤ 100) ∧
    (0 ≤ calculate_volatility_score df ∧ calculate_volatility_score df ≤ 100) ∧
    (0 ≤ calculate_relative_strength_score univ df bdf ticker ∧
      calculate_relative_strength_score univ df bdf ticker ≤ 100) ∧
    (0 ≤ (score_instrument univ df ticker bdata).composite ∧
      (score_instrument univ df ticker bdata).composite ≤ 100) ∧
    (0 ≤ (score_instrument univ df ticker bdata).trend ∧
      (score_instrument univ df ticker bdata).trend ≤ 100) ∧
    (0 ≤ (score_instrument univ df ticker bdata).momentum ∧
      (score_instrument univ df ticker bdata).momentum ≤ 100) ∧
    (0 ≤ (score_instrument univ df ticker bdata).volatility ∧
      (score_instrument univ df ticker bdata).volatility ≤ 100) ∧
    (0 ≤ (score_instrument univ df ticker bdata).relative_strength ∧
      (score_instrument univ df ticker bdata).relative_strength ≤ 100) := by
  refine ⟨calculate_trend_score_bounds df, calculate_momentum_score_bounds df,
    calculate_volatility_score_bounds df,
    calculate_relative_strength_score_bounds univ df bdf ticker,
    composite_bounds _ _ _ _ _,
    round2_bounds_of_bounds (calculate_trend_score_bounds df).1
      (calculate_trend_score_bounds df).2,
    round2_bounds_of_bounds (calculate_momentum_score_bounds df).1
      (calculate_momentum_score_bounds df).2,
    round2_bounds_of_bounds (calculate_volatility_score_bounds df).1
      (calculate_volatility_score_bounds df).2,
    round2_bounds_of_bounds (calculate_relative_strength_score_bounds univ df _ ticker).1
      (calculate_relative_strength_score_bounds univ df _ ticker).2⟩

/-- C10: `score_universe` is total on its input map — the output has an entry
for every input ticker in order — and a ticker whose scoring raises gets the
fallback score set (all components 50), rather than being omitted. -/
theorem C10_score_universe_total (scorer : String → ScoreDF → Except String Scores)
    (data : List (String × ScoreDF)) (t : String) (df : ScoreDF) (e : String)
    (ht : (t, df) ∈ data) (he : scorer t df = Except.error e) :
    (score_universe scorer data).map Prod.fst = data.map Prod.fst ∧
    (t, (⟨50, 50, 50, 50, 50⟩ : Scores)) ∈ score_universe scorer data := by
  constructor
  · unfold score_universe
    rw [List.map_map]
    apply List.map_congr_left
    intro p _
    cases h : scorer p.1 p.2 <;> simp [h]
  · unfold score_universe
    refine List.mem_map.mpr ⟨(t, df), ht, ?_⟩
    simp only [he]
    rfl

/-- Witness for C10 at a concrete one-ticker universe whose scorer raises. -/
theorem C10_score_universe_total_witness :
    (score_universe (fun _ _ => Except.error "boom") [("SPY", emptyDF)]).map
        Prod.fst = [("SPY", emptyDF)].map Prod.fst ∧
    ("SPY", (⟨50, 50, 50, 50, 50⟩ : Scores)) ∈
      score_universe (fun _ _ => Except.error "boom") [("SPY", emptyDF)] :=
  C10_score_universe_total (fun _ _ => Except.error "boom") [("SPY", emptyDF)]
    "SPY" emptyDF "boom" (by simp) rfl

theorem descRel_trans (k : String × Scores → ℚ) :
    ∀ a b c : String × Scores, decide (k b ≤ k a) = true →
      decide (k c ≤ k b) = true → decide (k c ≤ k a) = true := by
  intro a b c hab hbc
  simp only [decide_eq_true_eq] at *
  exact le_trans hbc hab

theorem descRel_total (k : String × Scores → ℚ) :
    ∀ a b : String × Scores,
      (decide (k b ≤ k a) || decide (k a ≤ k b)) = true := by
  intro a b
  simp only [Bool.or_eq_true, decide_eq_true_eq]
  exact le_total _ _

theorem ascRel_trans (k : String × Scores → ℚ) :
    ∀ a b c : String × Scores, decide (k a ≤ k b) = true →
      decide (k b ≤ k c) = true → decide (k a ≤ k c) = true := by
  intro a b c hab hbc
  simp only [decide_eq_true_eq] at *
  exact le_trans hab hbc

theorem ascRel_total (k : String × Scores → ℚ) :
    ∀ a b : String × Scores,
      (decide (k a ≤ k b) || decide (k b ≤ k a)) = true := by
  intro a b
  simp only [Bool.or_eq_true, decide_eq_true_eq]
  exact le_total _ _

theorem sortDescBy_perm (k : String × Scores → ℚ) (l : List (String × Scores)) :
    (sortDescBy k l).Perm l :=
  List.mergeSort_perm l _

theorem sortAscBy_perm (k : String × Scores → ℚ) (l : List (String × Scores)) :
    (sortAscBy k l).Perm l :=
  List.mergeSort_perm l _

theorem sortDescBy_sorted (k : String × Scores → ℚ) (l : List (String × Scores)) :
    (sortDescBy k l).Pairwise (fun a b => k b ≤ k a) := by
  have h := List.sorted_mergeSort (descRel_trans k) (descRel_total k) l
  exact h.imp (fun hab => by simpa using hab)

theorem sortAscBy_sorted (k : String × Scores → ℚ) (l : List (String × Scores)) :
    (sortAscBy k l).Pairwise (fun a b => k a ≤ k b) := by
  have h := List.sorted_mergeSort (ascRel_trans k) (ascRel_total k) l
  exact h.imp (fun hab => by simpa using hab)

theorem sortDescBy_stable (k : String × Scores → ℚ) (l : List (String × Scores))
    (c : ℚ) :
    (sortDescBy k l).filter (fun x => decide (k x = c)) =
      l.filter (fun x => decide (k x = c)) := by
  unfold sortDescBy
  have hpair : (l.filter (fun x => decide (k x = c))).Pairwise
      (fun a b => decide (k b ≤ k a) = true) := by
    apply List.pairwise_of_forall_mem_list
    intro a ha b hb
    have ha' := (List.mem_filter.mp ha).2
    have hb' := (List.mem_filter.mp hb).2
    simp only [decide_eq_true_eq] at *
    rw [ha', hb']
  have hsub : List.Sublist (l.filter (fun x => decide (k x = c)))
      (List.mergeSort l (fun a b => decide (k b ≤ k a))) :=
    List.sublist_mergeSort (descRel_trans k) (descRel_total k) hpair
      (List.filter_sublist l)
  have hfix : (l.filter (fun x => decide (k x = c))).filter
      (fun x => decide (k x = c)) = l.filter (fun x => decide (k x = c)) :=
    List.filter_eq_self.mpr (fun a ha => (List.mem_filter.mp ha).2)
  have hsub2 := hsub.filter (fun x => decide (k x = c))
  rw [hfix] at hsub2
  have hperm := (List.mergeSort_perm l
    (fun a b => decide (k b ≤ k a))).filter (fun x => decide (k x = c))
  exact (hsub2.eq_of_length hperm.length_eq.symm).symm

theorem sortAscBy_stable (k : String × Scores → ℚ) (l : List (String × Scores))
    (c : ℚ) :
    (sortAscBy k l).filter (fun x => decide (k x = c)) =
      l.filter (fun x => decide (k x = c)) := by
  unfold sortAscBy
  have hpair : (l.filter (fun x => decide (k x = c))).Pairwise
      (fun a b => decide (k a ≤ k b) = true) := by
    apply List.pairwise_of_forall_mem_list
    intro a ha b hb
    have ha' := (List.mem_filter.mp ha).2
    have hb' := (List.mem_filter.mp hb).2
    simp only [decide_eq_true_eq] at *
    rw [ha', hb']
  have hsub : List.Sublist (l.filter (fun x => decide (k x = c)))
      (List.mergeSort l (fun a b => decide (k a ≤ k b))) :=
    List.sublist_mergeSort (ascRel_trans k) (ascRel_total k) hpair
      (List.filter_sublist l)
  have hfix : (l.filter (fun x => decide (k x = c))).filter
      (fun x => decide (k x = c)) = l.filter (fun x => decide (k x = c)) :=
    List.filter_eq_self.mpr (fun a ha => (List.mem_filter.mp ha).2)
  have hsub2 := hsub.filter (fun x => decide (k x = c))
  rw [hfix] at hsub2
  have hperm := (List.mergeSort_perm l
    (fun a b => decide (k a ≤ k b))).filter (fun x => decide (k x = c))
  exact (hsub2.eq_of_length hperm.length_eq.symm).symm

/-- C8: `generate_rankings` orders every ranking list as a permutation of the
scores map, descending by composite/trend/momentum/relative-strength and
ascending by volatility, and each sort is stable: the entries carrying any
fixed score value appear in exactly the order they had in the input scores
map (which the pipeline builds in the configured universe order). -/
theorem C8_rankings_sorted_and_stable (sd : List (String × Scores)) :
    ((generate_rankings sd).by_composite_score.Perm sd ∧
      (generate_rankings sd).by_composite_score.Pairwise
        (fun a b => b.2.composite ≤ a.2.composite) ∧
      ∀ c : ℚ, (generate_rankings sd).by_composite_score.filter
          (fun x => decide (x.2.composite = c)) =
        sd.filter (fun x => decide (x.2.composite = c))) ∧
    ((generate_rankings sd).by_trend.Perm sd ∧
      (generate_rankings sd).by_trend.Pairwise
        (fun a b => b.2.trend ≤ a.2.trend) ∧
      ∀ c : ℚ, (generate_rankings sd).by_trend.filter
          (fun x => decide (x.2.trend = c)) =
        sd.filter (fun x => decide (x.2.trend = c))) ∧
    ((generate_rankings sd).by_momentum.Perm sd ∧
      (generate_rankings sd).by_momentum.Pairwise
        (fun a b => b.2.momentum ≤ a.2.momentum) ∧
      ∀ c : ℚ, (generate_rankings sd).by_momentum.filter
          (fun x => decide (x.2.momentum = c)) =
        sd.filter (fun x => decide (x.2.momentum = c))) ∧
    ((generate_rankings sd).by_volatility.Perm sd ∧
      (generate_rankings sd).by_volatility.Pairwise
        (fun a b => a.2.volatility ≤ b.2.volatility) ∧
      ∀ c : ℚ, (generate_rankings sd).by_volatility.filter
          (fun x => decide (x.2.volatility = c)) =
        sd.filter (fun x => decide (x.2.volatility = c))) ∧
    ((generate_rankings sd).by_relative_strength.Perm sd ∧
      (generate_rankings sd).by_relative_strength.Pairwise
        (fun a b => b.2.relative_strength ≤ a.2.relative_strength) ∧
      ∀ c : ℚ, (generate_rankings sd).by_relative_strength.filter
          (fun x => decide (x.2.relative_strength = c)) =
        sd.filter (fun x => decide (x.2.relative_strength = c))) :=
  ⟨⟨sortDescBy_perm _ sd, sortDescBy_sorted _ sd,
      fun c => sortDescBy_stable _ sd c⟩,
   ⟨sortDescBy_perm _ sd, sortDescBy_sorted _ sd,
      fun c => sortDescBy_stable _ sd c⟩,
   ⟨sortDescBy_perm _ sd, sortDescBy_sorted _ sd,
      fun c => sortDescBy_stable _ sd c⟩,
   ⟨sortAscBy_perm _ sd, sortAscBy_sorted _ sd,
      fun c => sortAscBy_stable _ sd c⟩,
   ⟨sortDescBy_perm _ sd, sortDescBy_sorted _ sd,
      fun c => sortDescBy_stable _ sd c⟩⟩

theorem posCell_isSome {o : Option ℚ} (h : posCell o = true) :
    o.isSome = true := by
  cases o <;> simp_all [posCell]

theorem eod_date_trans : ∀ a b c : EODBar, decide (a.date ≤ b.date) = true →
    decide (b.date ≤ c.date) = true → decide (a.date ≤ c.date) = true := by
  intro a b c h1 h2
  simp only [decide_eq_true_eq] at *
  exact le_trans h1 h2

theorem eod_date_total : ∀ a b : EODBar,
    (decide (a.date ≤ b.date) || decide (b.date ≤ a.date)) = true := by
  intro a b
  simp only [Bool.or_eq_true, decide_eq_true_eq]
  exact le_total _ _

/-- C6 counterexample: with ADX, +DI and −DI all missing, the ADX-direction
component computed by the code is 60, while the claim's formula — evaluated,
as the claim itself instructs, at the neutral defaults ADX = 20 and
±DI = 50 with the mathematical sign (`sign 0 = 0`) — gives 50. -/
theorem C6_counterexample :
    adx_direction (bareRow 0 100) = 60 ∧
    spec_adx_direction 20 50 50 = 50 ∧ (60 : ℚ) ≠ 50 := by
  refine ⟨?_, ?_, by norm_num⟩
  · norm_num [adx_direction, bareRow]
  · norm_num [spec_adx_direction, qsign]

/-- C6 amended: the ADX-direction component of the trend score (the
`adx_direction` block combined by `calculate_trend_score`) equals
`50 + (min(ADX,50) − 25)·2·d` clamped to `[0,100]`, where the direction `d`
is `+1` when `+DI > −DI` and `−1` OTHERWISE (so `−1`, not `0`, on a tie),
with a missing ADX replaced by 20 and missing ±DI by 50; in particular with
all three values missing the component evaluates to 60, not to 50. -/
theorem C6_adx_direction_amended (last : ScoreRow)
    (h : 0 ≤ last.adx.getD 20) :
    adx_direction last =
      max 0 (min 100 (50 + (min (last.adx.getD 20) 50 - 25) * 2 *
        (if last.plusDI.getD 50 > last.minusDI.getD 50 then 1 else -1))) ∧
    adx_direction (bareRow 0 100) = 60 := by
  constructor
  · have hmm : max 0 (min (last.adx.getD 20) 50) = min (last.adx.getD 20) 50 :=
      max_eq_right (le_min h (by norm_num))
    show max 0 (min 100 (50 + (max 0 (min (last.adx.getD 20) 50) - 25) * 2 *
      (if last.plusDI.getD 50 > last.minusDI.getD 50 then (1 : ℚ) else -1))) = _
    rw [hmm]
  · norm_num [adx_direction, bareRow]

/-- Witness for C6 at the all-missing row. -/
theorem C6_adx_direction_amended_witness :
    (adx_direction (bareRow 0 100) =
      max 0 (min 100 (50 + (min ((bareRow 0 100).adx.getD 20) 50 - 25) * 2 *
        (if (bareRow 0 100).plusDI.getD 50 > (bareRow 0 100).minusDI.getD 50
          then 1 else -1))) ∧
    adx_direction (bareRow 0 100) = 60) :=
  C6_adx_direction_amended (bareRow 0 100) (by norm_num [bareRow])

/-- C9 counterexample: with both reference symbols absent from the processed
map, the regime marks vix_regime and spy_trend "unknown" but sets
market_condition to "neutral" — not to "unknown" as the claim demands — while
the consolidation still emits the remaining instrument. -/
theorem C9_counterexample :
    (run_regime [("QQQ", qqqDF)]).vix_regime = "unknown" ∧
    (run_regime [("QQQ", qqqDF)]).spy_trend = "unknown" ∧
    (run_regime [("QQQ", qqqDF)]).market_condition = "neutral" ∧
    consolidated_tickers [("QQQ", qqqDF)] = ["QQQ"] ∧
    "neutral" ≠ "unknown" := by
  refine ⟨rfl, rfl, rfl, rfl, by decide⟩

theorem detect_vix_empty (spy : ScoreDF) :
    (detect_market_regime ⟨[], none, none, none⟩ spy).vix_level = none ∧
    (detect_market_regime ⟨[], none, none, none⟩ spy).vix_regime = "unknown" ∧
    (detect_market_regime ⟨[], none, none, none⟩ spy).risk_appetite =
      "neutral" ∧
    (detect_market_regime ⟨[], none, none, none⟩ spy).market_condition =
      "neutral" := by
  unfold detect_market_regime
  cases spy.rows.getLast? with
  | none => exact ⟨rfl, rfl, rfl, rfl⟩
  | some lasts =>
    dsimp only
    cases lasts.sma200 with
    | none => exact ⟨rfl, rfl, rfl, rfl⟩
    | some sma =>
      dsimp only
      by_cases hgt : lasts.close > sma
      · rw [if_pos hgt]
        exact ⟨rfl, rfl, rfl, rfl⟩
      · rw [if_neg hgt]
        exact ⟨rfl, rfl, rfl, rfl⟩

theorem detect_spy_empty (vix : ScoreDF) :
    (detect_market_regime vix ⟨[], none, none, none⟩).spy_above_sma200 =
      none ∧
    (detect_market_regime vix ⟨[], none, none, none⟩).spy_trend = "unknown" ∧
    (detect_market_regime vix ⟨[], none, none, none⟩).market_condition =
      "neutral" := by
  unfold detect_market_regime
  cases vix.rows.getLast? with
  | none => exact ⟨rfl, rfl, rfl⟩
  | some lastv =>
    dsimp only
    by_cases h1 : lastv.close < VIX_LOW
    · rw [if_pos h1]
      exact ⟨rfl, rfl, rfl⟩
    · by_cases h2 : lastv.close < VIX_MEDIUM
      · rw [if_neg h1, if_pos h2]
        exact ⟨rfl, rfl, rfl⟩
      · rw [if_neg h1, if_neg h2]
        exact ⟨rfl, rfl, rfl⟩

/-- C9 amended: when EITHER reference symbol produced no enriched series, the
regime fields directly derived from it are "unknown" (and the numeric/boolean
ones null) and risk_appetite keeps its "neutral" default where VIX-derived;
market_condition falls through the decision cascade to "neutral" — never
"unknown" — already when one reference alone is missing (every non-neutral
arm needs both a known VIX regime and a known SPY trend); instrument-level
output is still emitted for every nonempty processed series, independently of
the regime. -/
theorem C9_missing_reference_amended (processed : List (String × ScoreDF))
    (p : String × ScoreDF) (hp : p ∈ processed) (hne : p.2.rows ≠ []) :
    (processed.find? (fun q => q.1 == "^VIX") = none →
      (run_regime processed).vix_level = none ∧
      (run_regime processed).vix_regime = "unknown" ∧
      (run_regime processed).risk_appetite = "neutral" ∧
      (run_regime processed).market_condition = "neutral") ∧
    (processed.find? (fun q => q.1 == "SPY") = none →
      (run_regime processed).spy_above_sma200 = none ∧
      (run_regime processed).spy_trend = "unknown" ∧
      (run_regime processed).market_condition = "neutral") ∧
    p.1 ∈ consolidated_tickers processed := by
  refine ⟨?_, ?_, ?_⟩
  · intro hv
    have h1 : lookupDf processed "^VIX" = ⟨[], none, none, none⟩ := by
      unfold lookupDf
      rw [hv]
      rfl
    unfold run_regime
    rw [h1]
    exact detect_vix_empty (lookupDf processed "SPY")
  · intro hs
    have h2 : lookupDf processed "SPY" = ⟨[], none, none, none⟩ := by
      unfold lookupDf
      rw [hs]
      rfl
    unfold run_regime
    rw [h2]
    exact detect_spy_empty (lookupDf processed "^VIX")
  · unfold consolidated_tickers
    refine List.mem_map.mpr ⟨p, ?_, rfl⟩
    rw [List.mem_filter]
    refine ⟨hp, ?_⟩
    simpa using hne

/-- Witness for C9 at a one-symbol processed map; both single-missing
implications apply there. -/
theorem C9_missing_reference_amended_witness :
    (([("QQQ", qqqDF)] : List (String × ScoreDF)).find?
        (fun q => q.1 == "^VIX") = none →
      (run_regime [("QQQ", qqqDF)]).vix_level = none ∧
      (run_regime [("QQQ", qqqDF)]).vix_regime = "unknown" ∧
      (run_regime [("QQQ", qqqDF)]).risk_appetite = "neutral" ∧
      (run_regime [("QQQ", qqqDF)]).market_condition = "neutral") ∧
    (([("QQQ", qqqDF)] : List (String × ScoreDF)).find?
        (fun q => q.1 == "SPY") = none →
      (run_regime [("QQQ", qqqDF)]).spy_above_sma200 = none ∧
      (run_regime [("QQQ", qqqDF)]).spy_trend = "unknown" ∧
      (run_regime [("QQQ", qqqDF)]).market_condition = "neutral") ∧
    ("QQQ", qqqDF).1 ∈ consolidated_tickers [("QQQ", qqqDF)] :=
  C9_missing_reference_amended [("QQQ", qqqDF)] ("QQQ", qqqDF)
    (by simp) (by decide)

/-- C4 counterexample: the fetch output keeps the provider's raw prices — fed
a bar with close 100 and adjusted_close 50, `get_eod_data` returns the bar
unchanged (open 10, close 100), which differs from the claim's back-adjusted
bar (open 5, high 6, low 9/2, close 50). -/
theorem C4_counterexample :
    get_eod_data [unadjBar] 1 = some [unadjBar] ∧
    spec_back_adjust unadjBar = ⟨0, 5, 6, 9 / 2, 50, some 50, 0⟩ ∧
    unadjBar ≠ ⟨0, 5, 6, 9 / 2, 50, some 50, 0⟩ := by
  refine ⟨by simp [get_eod_data, unadjBar], ?_, by decide⟩
  norm_num [spec_back_adjust, unadjBar]

/-- C4 amended: no back-adjustment is performed — every bar of the fetch
output carries the provider's open/high/low/close verbatim, with the
adjusted close stored in the separate Adj Close column (copied from close
only when the provider omitted it); the output is sorted ascending by
date. -/
theorem C4_no_adjustment_amended (bars : List EODBar) (min_required_rows : ℕ)
    (out : List EODBar) (h : get_eod_data bars min_required_rows = some out)
    (b : EODBar) (hb : b ∈ out) :
    (∃ a ∈ bars, b.openP = a.openP ∧ b.high = a.high ∧ b.low = a.low ∧
      b.close = a.close ∧ b.date = a.date ∧
      b.adjusted_close = some (a.adjusted_close.getD a.close)) ∧
    out.Pairwise (fun x y => x.date ≤ y.date) := by
  unfold get_eod_data at h
  by_cases h0 : bars.isEmpty
  · rw [if_pos h0] at h
    exact absurd h (by simp)
  · rw [if_neg h0] at h
    dsimp only at h
    split at h
    · exact absurd h (by simp)
    · have hout := (Option.some.inj h).symm
      subst hout
      constructor
      · have hmem := List.mem_mergeSort.mp hb
        obtain ⟨a, ha, hfa⟩ := List.mem_map.mp hmem
        refine ⟨a, ha, ?_⟩
        rw [← hfa]
        exact ⟨rfl, rfl, rfl, rfl, rfl, rfl⟩
      · have hs := List.sorted_mergeSort eod_date_trans eod_date_total
          (bars.map (fun b =>
            { b with adjusted_close := some (b.adjusted_close.getD b.close) }))
        exact hs.imp (fun hab => by simpa using hab)

/-- Witness for C4 at a concrete one-bar fetch. -/
theorem C4_no_adjustment_amended_witness :
    (∃ a ∈ [unadjBar], unadjBar.openP = a.openP ∧ unadjBar.high = a.high ∧
      unadjBar.low = a.low ∧ unadjBar.close = a.close ∧
      unadjBar.date = a.date ∧
      unadjBar.adjusted_close = some (a.adjusted_close.getD a.close)) ∧
    List.Pairwise (fun x y : EODBar => x.date ≤ y.date) [unadjBar] :=
  C4_no_adjustment_amended [unadjBar] 1 [unadjBar]
    (by simp [get_eod_data, unadjBar]) unadjBar (by decide)

/-- C3 counterexample: `clean_dataframe` performs no session trimming — fed a
single positively-priced bar dated "today" (ordinal 5) while
market_closed_for_today is false, the cleaned series still contains a bar
dated 5, so the claimed removal does not happen. -/
theorem C3_counterexample :
    (clean_dataframe ⟨[todayRawRow], true⟩).rows.map (fun r => r.date) = [5] ∧
    ∃ r ∈ (clean_dataframe ⟨[todayRawRow], true⟩).rows, r.date = 5 := by
  have hrows : (clean_dataframe ⟨[todayRawRow], true⟩).rows = [todayRawRow] := by
    simp [clean_dataframe, keepPositive, posCell, todayRawRow]
  rw [hrows]
  exact ⟨rfl, ⟨todayRawRow, by simp, rfl⟩⟩

/-- C3 amended: the cleaning step never drops a bar because of its date — a
row with all-present positive prices is retained whatever its date (today's
included); the only session mechanism is `get_date_range_for_analysis`, which
requests data only up to yesterday (`end = now − 1`,
`start = end − lookback`). -/
theorem C3_no_session_trim_amended (df : RawDF) (r : RawRow)
    (h1 : r ∈ df.rows) (h2 : priceOk r df.hasAdjClose = true)
    (now lookback : ℤ) :
    (∃ r' ∈ (clean_dataframe df).rows, r'.date = r.date) ∧
    get_date_range_for_analysis now lookback =
      (now - 1 - lookback, now - 1) := by
  refine ⟨?_, rfl⟩
  simp only [clean_dataframe]
  simp only [priceOk, Bool.and_eq_true, Bool.or_eq_true] at h2
  obtain ⟨⟨⟨⟨ho, hh⟩, hl⟩, hc⟩, hadj⟩ := h2
  have m1 : r ∈ df.rows.filter (fun r =>
      r.openP.isSome && r.high.isSome && r.low.isSome && r.close.isSome) :=
    List.mem_filter.mpr ⟨h1, by
      simp [posCell_isSome ho, posCell_isSome hh, posCell_isSome hl,
        posCell_isSome hc]⟩
  have m2 : r ∈ keepPositive (fun r => r.openP)
      (df.rows.filter (fun r =>
        r.openP.isSome && r.high.isSome && r.low.isSome && r.close.isSome)) :=
    List.mem_filter.mpr ⟨m1, ho⟩
  have m3 : r ∈ keepPositive (fun r => r.high)
      (keepPositive (fun r => r.openP)
        (df.rows.filter (fun r => r.openP.isSome && r.high.isSome &&
          r.low.isSome && r.close.isSome))) :=
    List.mem_filter.mpr ⟨m2, hh⟩
  have m4 : r ∈ keepPositive (fun r => r.low)
      (keepPositive (fun r => r.high) (keepPositive (fun r => r.openP)
        (df.rows.filter (fun r => r.openP.isSome && r.high.isSome &&
          r.low.isSome && r.close.isSome)))) :=
    List.mem_filter.mpr ⟨m3, hl⟩
  have m5 : r ∈ keepPositive (fun r => r.close)
      (keepPositive (fun r => r.low) (keepPositive (fun r => r.high)
        (keepPositive (fun r => r.openP)
          (df.rows.filter (fun r => r.openP.isSome && r.high.isSome &&
            r.low.isSome && r.close.isSome))))) :=
    List.mem_filter.mpr ⟨m4, hc⟩
  have m6 : r ∈ (if df.hasAdjClose then
      keepPositive (fun r => r.adjClose)
        (keepPositive (fun r => r.close) (keepPositive (fun r => r.low)
          (keepPositive (fun r => r.high) (keepPositive (fun r => r.openP)
            (df.rows.filter (fun r => r.openP.isSome && r.high.isSome &&
              r.low.isSome && r.close.isSome))))))
    else keepPositive (fun r => r.close) (keepPositive (fun r => r.low)
      (keepPositive (fun r => r.high) (keepPositive (fun r => r.openP)
        (df.rows.filter (fun r => r.openP.isSome && r.high.isSome &&
          r.low.isSome && r.close.isSome)))))) := by
    by_cases hcase : df.hasAdjClose
    · rw [if_pos hcase]
      refine List.mem_filter.mpr ⟨m5, ?_⟩
      rcases hadj with hfalse | hpos
      · rw [hcase] at hfalse
        exact absurd hfalse (by simp)
      · exact hpos
    · rw [if_neg hcase]
      exact m5
  exact ⟨{ r with volume := some (r.volume.getD 0) },
    List.mem_map.mpr ⟨r, List.mem_mergeSort.mpr m6, rfl⟩, rfl⟩

/-- Witness for C3 at a concrete today-dated bar. -/
theorem C3_no_session_trim_amended_witness :
    (∃ r' ∈ (clean_dataframe ⟨[todayRawRow], true⟩).rows,
      r'.date = todayRawRow.date) ∧
    get_date_range_for_analysis 100 10 = (100 - 1 - 10, 100 - 1) :=
  C3_no_session_trim_amended ⟨[todayRawRow], true⟩ todayRawRow (by decide)
    (by decide) 100 10

theorem rsi_no_week (cfg : SignalConfig) (last : SignalRow) :
    Signal.breakingAboveWeeklyHigh ∉ rsiSignals cfg last ∧
    Signal.breakingBelowWeeklyLow ∉ rsiSignals cfg last := by
  unfold rsiSignals
  cases last.rsi with
  | none => simp
  | some r =>
    dsimp only
    split_ifs <;> simp

theorem volume_no_week (cfg : SignalConfig) (last : SignalRow) :
    Signal.breakingAboveWeeklyHigh ∉ volumeSignals cfg last ∧
    Signal.breakingBelowWeeklyLow ∉ volumeSignals cfg last := by
  unfold volumeSignals
  cases last.volumeRatio with
  | none => simp
  | some vr =>
    dsimp only
    split_ifs <;> simp

theorem macd_no_week (last prev : SignalRow) :
    Signal.breakingAboveWeeklyHigh ∉ macdSignals last prev ∧
    Signal.breakingBelowWeeklyLow ∉ macdSignals last prev := by
  unfold macdSignals
  cases last.macd <;> cases last.macdSignal <;> cases prev.macd <;>
    cases prev.macdSignal <;> dsimp only <;>
    first
      | (split_ifs <;> simp)
      | simp

theorem sma_no_week (last prev : SignalRow) :
    Signal.breakingAboveWeeklyHigh ∉ smaCrossSignals last prev ∧
    Signal.breakingBelowWeeklyLow ∉ smaCrossSignals last prev := by
  unfold smaCrossSignals
  cases last.sma50 <;> cases last.sma200 <;> cases prev.sma50 <;>
    cases prev.sma200 <;> dsimp only <;>
    first
      | (split_ifs <;> simp)
      | simp

theorem adx_no_week (cfg : SignalConfig) (last : SignalRow) :
    Signal.breakingAboveWeeklyHigh ∉ adxSignals cfg last ∧
    Signal.breakingBelowWeeklyLow ∉ adxSignals cfg last := by
  unfold adxSignals
  cases last.adx with
  | none => simp
  | some a =>
    dsimp only
    split_ifs <;> simp

theorem bb_ok_no_week (cfg : SignalConfig) (last : SignalRow)
    (s3 : List Signal) (h : bbSignals cfg last = Except.ok s3) :
    Signal.breakingAboveWeeklyHigh ∉ s3 ∧
    Signal.breakingBelowWeeklyLow ∉ s3 := by
  unfold bbSignals at h
  revert h
  cases last.bbUpper <;> cases last.bbLower <;> intro h <;>
    (try dsimp only at h) <;> (try split_ifs at h) <;> cases h <;> simp

theorem gap_ok_no_week (cfg : SignalConfig) (last prev : SignalRow)
    (s5 : List Signal) (h : gapSignals cfg last prev = Except.ok s5) :
    Signal.breakingAboveWeeklyHigh ∉ s5 ∧
    Signal.breakingBelowWeeklyLow ∉ s5 := by
  unfold gapSignals at h
  dsimp only at h
  split_ifs at h <;> cases h <;> simp

theorem mem_priceSignals_above (df : List SignalRow) (last : SignalRow)
    (h5 : 5 ≤ df.length) :
    Signal.breakingAboveWeeklyHigh ∈ priceSignals df last ↔
      last.close > weekHigh df := by
  unfold priceSignals
  rw [if_pos h5]
  split_ifs <;> simp_all

theorem mem_priceSignals_below (df : List SignalRow) (last : SignalRow)
    (h5 : 5 ≤ df.length) :
    Signal.breakingBelowWeeklyLow ∈ priceSignals df last ↔
      last.close < weekLow df := by
  unfold priceSignals
  rw [if_pos h5]
  split_ifs <;> simp_all

/-- C7 counterexample: the claim requires a "Breaking above prev_day_high"
signal when the close crosses up through the previous day's high (here:
previous close 8, previous-day high 10, last close 15, weekly high 20),
but the generator emits NO signal at all — it never inspects the
previous-day levels and has no "Testing" variants. -/
theorem C7_counterexample :
    generate_signals cfg0 sigDF = [] ∧
    (sigDF.getD 3 (sigRowOHLC 0 0 0 0)).high = 10 ∧
    (sigDF.getD 3 (sigRowOHLC 0 0 0 0)).close = 8 ∧
    (sigDF.getD 4 (sigRowOHLC 0 0 0 0)).close = 15 ∧
    weekHigh sigDF = 20 := by
  refine ⟨?_, by decide, by decide, by decide, by decide⟩
  norm_num [generate_signals, sigDF, sigRowOHLC, priceSignals, weekHigh,
    weekLow, weekWindow, rsiSignals, bbSignals, volumeSignals, gapSignals,
    macdSignals, smaCrossSignals, adxSignals, cfg0, List.getLast?]

/-- C7 amended: of the four claimed price levels the signal generator handles
only the two weekly ones, and only as "Breaking": for a series of at least
five rows, "Breaking above weekly high" is emitted iff the last close exceeds
the max of the five preceding highs, and "Breaking below weekly low" iff the
last close is below the min of the five preceding lows; no previous-day-level
and no "Testing" signal exists. -/
theorem C7_price_level_signals_amended (cfg : SignalConfig)
    (df : List SignalRow) (h5 : 5 ≤ df.length) (last : SignalRow)
    (hl : df.getLast? = some last) :
    (Signal.breakingAboveWeeklyHigh ∈ generate_signals cfg df ↔
      last.close > weekHigh df) ∧
    (Signal.breakingBelowWeeklyLow ∈ generate_signals cfg df ↔
      last.close < weekLow df) := by
  obtain ⟨prev, hp⟩ : ∃ prev, df.dropLast.getLast? = some prev := by
    cases hp : df.dropLast.getLast? with
    | some p => exact ⟨p, rfl⟩
    | none =>
      rw [List.getLast?_eq_none_iff] at hp
      have := congrArg List.length hp
      simp only [List.length_dropLast, List.length_nil] at this
      omega
  have hrsi := rsi_no_week cfg last
  have hvol := volume_no_week cfg last
  have hmacd := macd_no_week last prev
  have hsma := sma_no_week last prev
  have hadx := adx_no_week cfg last
  unfold generate_signals
  rw [if_neg (by omega)]
  simp only [hl, hp]
  cases hbb : bbSignals cfg last with
  | error e =>
    constructor
    · simp [List.mem_append, hrsi.1, mem_priceSignals_above df last h5]
    · simp [List.mem_append, hrsi.2, mem_priceSignals_below df last h5]
  | ok s3 =>
    have hbb3 := bb_ok_no_week cfg last s3 hbb
    cases hgap : gapSignals cfg last prev with
    | error e =>
      constructor
      · simp [List.mem_append, hrsi.1, hbb3.1, hvol.1,
          mem_priceSignals_above df last h5]
      · simp [List.mem_append, hrsi.2, hbb3.2, hvol.2,
          mem_priceSignals_below df last h5]
    | ok s5 =>
      have hgap5 := gap_ok_no_week cfg last prev s5 hgap
      constructor
      · simp [List.mem_append, hrsi.1, hbb3.1, hvol.1, hgap5.1, hmacd.1,
          hsma.1, hadx.1, mem_priceSignals_above df last h5]
      · simp [List.mem_append, hrsi.2, hbb3.2, hvol.2, hgap5.2, hmacd.2,
          hsma.2, hadx.2, mem_priceSignals_below df last h5]

/-- Witness for C7 at the concrete five-row series. -/
theorem C7_price_level_signals_amended_witness :
    (Signal.breakingAboveWeeklyHigh ∈ generate_signals cfg0 sigDF ↔
      (sigRowOHLC 8 15 8 15).close > weekHigh sigDF) ∧
    (Signal.breakingBelowWeeklyLow ∈ generate_signals cfg0 sigDF ↔
      (sigRowOHLC 8 15 8 15).close < weekLow sigDF) :=
  C7_price_level_signals_amended cfg0 sigDF (by decide) (sigRowOHLC 8 15 8 15)
    (by decide)

theorem rollingWindow_eq (s : List ℚ) (W i : ℕ) :
    rollingWindow s W i =
      (s.take (i + 1)).drop ((s.take (i + 1)).length - W) := rfl

theorem rollingWindow_length (s : List ℚ) (W i : ℕ) (hi : i < s.length) :
    (rollingWindow s W i).length = min W (i + 1) := by
  rw [rollingWindow_eq]
  simp only [List.length_drop, List.length_take]
  omega

theorem rollingWindow_getLastD (s : List ℚ) (W i : ℕ) (hW : 1 ≤ W)
    (hi : i < s.length) :
    (rollingWindow s W i).getLastD 0 = s.getD i 0 := by
  have h1 : (s.take (i + 1)).length = i + 1 := by
    rw [List.length_take]
    omega
  rw [rollingWindow_eq, List.getLastD_eq_getLast?, List.getLast?_eq_getElem?,
    List.getElem?_drop, List.length_drop, h1]
  have h2 : i + 1 - W + (i + 1 - (i + 1 - W) - 1) = i := by omega
  rw [h2, List.getElem?_take_of_lt (by omega : i < i + 1),
    List.getD_eq_getElem?_getD]

theorem countP_lt_last (w : List ℚ) (hw : w ≠ []) (c : ℚ)
    (hc : w.getLastD 0 = c) :
    w.countP (fun x => decide (x < c)) =
      w.dropLast.countP (fun x => decide (x < c)) := by
  have hlast : w.getLast hw = c := by
    rw [← hc, List.getLastD_eq_getLast?, List.getLast?_eq_getLast w hw]
    rfl
  conv_lhs => rw [← List.dropLast_append_getLast hw]
  rw [List.countP_append]
  simp [hlast]

theorem rolling_rank_getD_eq (s : List ℚ) (W i : ℕ) (hi : i < s.length) :
    (rolling_percentile_rank s W).getD i none =
      (if (rollingWindow s W i).length < 50 then none
       else some (if 0 < (rollingWindow s W i).length
         then windowRank (rollingWindow s W i) else 50)) := by
  unfold rolling_percentile_rank
  rw [List.getD_eq_getElem?_getD, List.getElem?_map, List.getElem?_range hi]
  rfl

theorem spec_rolling_rank_getD_eq (s : List ℚ) (W i : ℕ) (hi : i < s.length) :
    (spec_rolling_percentile_rank s W).getD i none =
      (if (rollingWindow s W i).length < 50 then none
       else some ((((rollingWindow s W i).dropLast.countP
            (fun x => decide (x < (rollingWindow s W i).getLastD 0))) : ℚ) /
          (((rollingWindow s W i).dropLast.length) : ℚ) * 100)) := by
  unfold spec_rolling_percentile_rank
  rw [List.getD_eq_getElem?_getD, List.getElem?_map, List.getElem?_range hi]
  rfl

/-- C2 counterexample: over the strictly increasing 50-value series, the rank
at the 50th position computed by the code is 98 — 49 strictly-smaller values
divided by the FULL window size 50, current value included — while the
claim's formula (preceding values only, denominator 49) gives 100. -/
theorem C2_counterexample :
    (rolling_percentile_rank ascSeries 252).getD 49 none = some 98 ∧
    (spec_rolling_percentile_rank ascSeries 252).getD 49 none = some 100 ∧
    some (98 : ℚ) ≠ some (100 : ℚ) := by
  have hi : 49 < ascSeries.length := by decide
  have hwlen : (rollingWindow ascSeries 252 49).length = 50 := by decide
  have hlast : (rollingWindow ascSeries 252 49).getLastD 0 = 49 := by decide
  have hcount : (rollingWindow ascSeries 252 49).countP
      (fun x => decide (x < (49 : ℚ))) = 49 := by decide
  have hcount2 : (rollingWindow ascSeries 252 49).dropLast.countP
      (fun x => decide (x < (49 : ℚ))) = 49 := by decide
  have hdlen : (rollingWindow ascSeries 252 49).dropLast.length = 49 := by
    decide
  refine ⟨?_, ?_, by decide⟩
  · rw [rolling_rank_getD_eq ascSeries 252 49 hi, if_neg (by omega),
      if_pos (by omega)]
    unfold windowRank
    simp only [hlast, hcount, hwlen]
    norm_num
  · rw [spec_rolling_rank_getD_eq ascSeries 252 49 hi, if_neg (by omega)]
    simp only [hlast, hcount2, hdlen]
    norm_num

/-- C2 amended: the rolling percentile rank at position `i` equals the count
of PRECEDING window values strictly below `s[i]` divided by the full window
size `min W (i+1)` — the current value counts in the denominator (so the
claim's fraction-of-preceding-values reading is off by one in the
denominator); with fewer than 50 observations the rank is NaN (`none`), and
the scoring layer substitutes 50 for such a NaN rank. -/
theorem C2_percentile_rank_amended (s : List ℚ) (W i : ℕ) (hW : 50 ≤ W)
    (hi : i < s.length) (col : List ℚ) (hcol : col.length < 50) :
    (rolling_percentile_rank s W).getD i none =
      (if i + 1 < 50 then none
       else some ((((rollingWindow s W i).dropLast.countP
            (fun x => decide (x < s.getD i 0)) : ℕ) : ℚ) /
          ((min W (i + 1) : ℕ) : ℚ) * 100)) ∧
    lastRankOr50 col 252 = 50 := by
  constructor
  · rw [rolling_rank_getD_eq s W i hi]
    have hlen := rollingWindow_length s W i hi
    by_cases hc : i + 1 < 50
    · rw [if_pos (by omega : (rollingWindow s W i).length < 50), if_pos hc]
    · have hge : ¬(rollingWindow s W i).length < 50 := by omega
      rw [if_neg hge, if_neg hc,
        if_pos (by omega : 0 < (rollingWindow s W i).length)]
      have hne : rollingWindow s W i ≠ [] := by
        intro h
        rw [h] at hlen
        simp only [List.length_nil] at hlen
        omega
      have hlast := rollingWindow_getLastD s W i (by omega) hi
      unfold windowRank
      rw [hlast, countP_lt_last (rollingWindow s W i) hne (s.getD i 0) hlast,
        hlen]
  · unfold lastRankOr50
    by_cases hnil : col = []
    · subst hnil
      rfl
    · have hn1 : col.length - 1 < col.length := by
        cases col with
        | nil => exact absurd rfl hnil
        | cons a as => simp
      have hwl := rollingWindow_length col 252 (col.length - 1) hn1
      have hlt : (rollingWindow col 252 (col.length - 1)).length < 50 := by
        omega
      have hentry : (rolling_percentile_rank col 252).getLastD none = none := by
        have hlen2 : (rolling_percentile_rank col 252).length = col.length := by
          unfold rolling_percentile_rank
          simp
        rw [List.getLastD_eq_getLast?, List.getLast?_eq_getElem?, hlen2]
        unfold rolling_percentile_rank
        rw [List.getElem?_map, List.getElem?_range hn1]
        simp only [Option.map_some', Option.getD_some]
        rw [if_pos hlt]
      rw [hentry]

/-- Witness for C2 at a two-value series (rank NaN) and a three-value
column (scoring substitutes 50). -/
theorem C2_percentile_rank_amended_witness :
    ((rolling_percentile_rank [(0 : ℚ), 1] 252).getD 1 none =
      (if 1 + 1 < 50 then none
       else some ((((rollingWindow [(0 : ℚ), 1] 252 1).dropLast.countP
            (fun x => decide (x < ([(0 : ℚ), 1].getD 1 0))) : ℕ) : ℚ) /
          ((min 252 (1 + 1) : ℕ) : ℚ) * 100))) ∧
    lastRankOr50 [(1 : ℚ), 2, 3] 252 = 50 :=
  C2_percentile_rank_amended [(0 : ℚ), 1] 252 1 (by decide) (by decide)
    [(1 : ℚ), 2, 3] (by decide)

end DMA
